import Mathlib

/-!
Shallow embedding of the `ComboClassConfigurator` engine
(src/raw/classConfig.js) of the webflow-front-end-library repository.

The engine is a declarative interaction-to-state machine: a list of rule
declarations is normalized (`setup`), expanded by attribute pairing or by
replication, and each expanded rule is bound to a trigger kind (click,
hover, scrollInView).  Firing a rule runs a label-mutation pass over an
ordered target sequence.

Modelling conventions:
* DOM elements are records carrying an id, a class list, an attribute
  list, an ancestor-id list (standing for the element tree, ids are
  assumed unique), and a bounding rectangle (`rectTop`/`rectBottom`,
  integer pixel coordinates as returned by getBoundingClientRect).
* Browser primitives (classList.add / classList.remove, querySelector,
  getElementById, getBoundingClientRect, IntersectionObserver
  notifications) are modelled with their standard semantics over this
  element type.  The modelled CSS fragment covers class selectors
  (".foo"), id selectors ("#foo") and attribute-presence selectors,
  which is what the engine and the claims use.
* JS strings are Lean `String`s; the JS `startsWith` / `endsWith` /
  first-occurrence `replace` primitives are defined over the character
  lists.  JS numbers appearing as thresholds or ratios are modelled as
  `Rat`; index parameters (`start`, `end`, `frequency`,
  `repeatConfiguration`) are modelled as `Nat` following the data
  model's invariants (start >= 1, end >= 0, frequency >= 1), with the
  JS remainder's zero-divisor behaviour made explicit.
* The single-threaded event loop is modelled by processing each trigger
  event together with its animation-frame flush as one atomic step;
  requestAnimationFrame deferral inside a mutation pass is modelled by
  performing the mutations at the end of the step, in order.
-/

/-- A mutation action kind, the `action` parameter of `_initClasses`
("add" or "remove"). -/
inductive JsAction where
  | add
  | remove
deriving DecidableEq, Repr

/-- A DOM element: id, class list, attributes, ancestor ids, bounding
rectangle. -/
structure Elem where
  eid : String
  classes : List String
  attrs : List (String × String)
  ancestors : List String
  rectTop : Int
  rectBottom : Int
deriving DecidableEq, Repr

/-- A reference to a parent or trigger element as stored in a config:
either a selector/id string or a direct element reference
(`string|HTMLElement` in the source). -/
inductive ElemRef where
  | sel (s : String)
  | el (e : Elem)
deriving DecidableEq, Repr

/-- JS `String.prototype.startsWith` over the character list. -/
def jsStartsWith (s p : String) : Bool := p.data.isPrefixOf s.data

/-- JS `String.prototype.endsWith` over the character list. -/
def jsEndsWith (s p : String) : Bool := p.data.isSuffixOf s.data

/-- Remove the first occurrence of '.' from a character list
(JS `replace(".", "")` replaces only the first occurrence). -/
def removeFirstDot : List Char → List Char
  | [] => []
  | c :: rest => if c = '.' then rest else c :: removeFirstDot rest

/-- JS `cls.replace(".", "")`: delete the first dot of the string. -/
def jsReplaceDot (s : String) : String := ⟨removeFirstDot s.data⟩

/-- JS `String.prototype.trim`: drop leading and trailing whitespace
(defined over the character list so that it evaluates by reduction). -/
def jsTrim (s : String) : String :=
  ⟨((s.data.dropWhile Char.isWhitespace).reverse.dropWhile Char.isWhitespace).reverse⟩

/-- JS `element.classList.add(...names)`: append each name not already
present, keeping order. -/
def classListAdd (cs : List String) (toAdd : List String) : List String :=
  toAdd.foldl (fun acc c => if c ∈ acc then acc else acc ++ [c]) cs

/-- JS `element.classList.remove(...names)`: delete every listed name,
keeping the order of the remaining ones. -/
def classListRemove (cs : List String) (toRemove : List String) : List String :=
  cs.filter (fun c => !(toRemove.contains c))

/-- JS `element.getAttribute(a)`: the attribute's value, if present. -/
def getAttrVal (e : Elem) (a : String) : Option String :=
  (e.attrs.find? (fun p => p.1 == a)).map (·.2)

/-- The modelled CSS fragment for `querySelector`/`querySelectorAll`:
class selectors ".foo", id selectors "#foo", attribute selectors
"[attr]"; other selector forms are outside the modelled fragment. -/
def cssMatches (e : Elem) (sel : String) : Bool :=
  if jsStartsWith sel "." then e.classes.contains (sel.drop 1)
  else if jsStartsWith sel "#" then e.eid == sel.drop 1
  else if jsStartsWith sel "[" then (getAttrVal e ((sel.drop 1).dropRight 1)).isSome
  else false

/-- The `getElement` helper (source lines 794-799, likewise the closure
at lines 406-411): a string starting with "." is resolved with
`document.querySelector`, any other non-empty string with
`document.getElementById`; the empty string is falsy and yields null. -/
def getElementFn (doc : List Elem) (selectorOrId : String) : Option Elem :=
  if selectorOrId = "" then none
  else if jsStartsWith selectorOrId "." then doc.find? (fun e => cssMatches e selectorOrId)
  else doc.find? (fun e => e.eid == selectorOrId)

/-- A processed class configuration (one entry of `this.classConfigs`).
Field names follow the source; `endIdx` stands for the source field
`end` (a Lean keyword).  `hasCallback` records whether the user supplied
a `callback` function; the callback itself is modelled by recording its
invocations. -/
structure Config where
  eventName : String
  transitionTime : String
  removeTransitionTime : Option String
  easingMode : String
  entryThreshold : Rat
  exitThreshold : Option Rat
  parentElement : ElemRef
  triggerElement : ElemRef
  once : Bool
  debounce : Nat
  switchAction : Bool
  repeatConfiguration : Nat
  triggerAttribut : String
  parentAttribut : String
  hasCallback : Bool
  classesAdded : Bool
  start : Nat
  endIdx : Nat
  frequency : Nat
  addClasses : List String
  removeClasses : List String
  topAddClasses : List String
  targetClass : String
deriving DecidableEq, Repr

/-- A JS value sitting in a numeric configuration field: a number, or
any non-number value (null, undefined, string, ...). -/
inductive JNum where
  | num (v : Rat)
  | other
deriving DecidableEq, Repr

/-- A JS value sitting in a class-list configuration field: an array of
strings, or any non-array value. -/
inductive JStrList where
  | arr (xs : List String)
  | notArr
deriving DecidableEq, Repr

/-- A raw (user-supplied, partial) rule declaration.  `none` means the
field is absent, so the spread `{...defaultConfig, ...config}` keeps the
default. -/
structure RawConfig where
  eventName : Option String := none
  transitionTime : Option String := none
  removeTransitionTime : Option String := none
  easingMode : Option String := none
  entryThreshold : Option JNum := none
  exitThreshold : Option JNum := none
  parentElement : Option ElemRef := none
  triggerElement : Option ElemRef := none
  once : Option Bool := none
  debounce : Option Nat := none
  switchAction : Option Bool := none
  repeatConfiguration : Option JNum := none
  triggerAttribut : Option String := none
  parentAttribut : Option String := none
  hasCallback : Option Bool := none
  classesAdded : Option Bool := none
  start : Option Nat := none
  endIdx : Option Nat := none
  frequency : Option Nat := none
  addClasses : Option JStrList := none
  removeClasses : Option JStrList := none
  topAddClasses : Option JStrList := none
  targetClass : Option String := none
deriving DecidableEq, Repr

/-- The supported easing modes (source line 197). -/
def supportedEasings : List String := ["ease", "ease-in", "ease-out", "ease-in-out"]

/-- `_validateThreshold` (source lines 295-297): a numeric value in
[0,100] is kept, anything else falls back to the default (the entry
default is 0, the exit default is null, hence the `Option Rat`). -/
def validateThreshold (value : JNum) (dflt : Option Rat) : Option Rat :=
  match value with
  | .num v => if 0 ≤ v ∧ v ≤ 100 then some v else dflt
  | .other => dflt

/-- `_cleanClasses` (source lines 306-310): a non-array becomes the
empty list; otherwise delete the first dot of each name, trim it, and
drop empties. -/
def cleanClasses : JStrList → List String
  | .notArr => []
  | .arr xs => (xs.map (fun c => jsTrim (jsReplaceDot c))).filter (fun c => !(c == ""))

/-- Repeat-count validation (source lines 254-257): a number >= 1 is
floored, anything else falls back to 1. -/
def computeRepeatCount : JNum → Nat
  | .num q => if 1 ≤ q then q.floor.toNat else 1
  | .other => 1

/-- Normalization of one raw rule inside `setup` (source lines
226-273): merge with the defaults, validate easing and thresholds,
clean the class lists, resolve the `topAddClasses` conflicts, and
compute the repeat count.  The merged `repeatConfiguration` field is
only ever read to compute the repeat count and is overwritten with 1 in
every emitted config, so the normalized config stores the computed
count. -/
def normalizeRule (r : RawConfig) : Config × Nat :=
  let easing0 := r.easingMode.getD "ease"
  let easing := if supportedEasings.contains easing0 then easing0 else "ease"
  let entry := (validateThreshold (r.entryThreshold.getD (.num 0)) (some 0)).getD 0
  let exit := validateThreshold (r.exitThreshold.getD .other) none
  let adds := cleanClasses (r.addClasses.getD (.arr []))
  let removes0 := cleanClasses (r.removeClasses.getD (.arr []))
  let tops := cleanClasses (r.topAddClasses.getD (.arr []))
  let repeatCount := computeRepeatCount (r.repeatConfiguration.getD (.num 1))
  let removes := if tops ≠ [] then [] else removes0
  let sw := if tops ≠ [] then false else r.switchAction.getD false
  ({ eventName := r.eventName.getD "click"
     transitionTime := r.transitionTime.getD "0s"
     removeTransitionTime := r.removeTransitionTime
     easingMode := easing
     entryThreshold := entry
     exitThreshold := exit
     parentElement := r.parentElement.getD (.sel "")
     triggerElement := r.triggerElement.getD (.sel "")
     once := r.once.getD false
     debounce := r.debounce.getD 0
     switchAction := sw
     repeatConfiguration := repeatCount
     triggerAttribut := r.triggerAttribut.getD ""
     parentAttribut := r.parentAttribut.getD ""
     hasCallback := r.hasCallback.getD false
     classesAdded := r.classesAdded.getD false
     start := r.start.getD 1
     endIdx := r.endIdx.getD 0
     frequency := r.frequency.getD 1
     addClasses := adds
     removeClasses := removes
     topAddClasses := tops
     targetClass := r.targetClass.getD "" }, repeatCount)

/-- One insertion into the value-grouping map of
`_mapElementsByAttribute`: push onto the existing entry or append a new
one (JS `Map` keeps insertion order). -/
def mapInsert (m : List (String × List Elem)) (k : String) (e : Elem) :
    List (String × List Elem) :=
  match m with
  | [] => [(k, [e])]
  | (k', es) :: rest =>
    if k' = k then (k', es ++ [e]) :: rest else (k', es) :: mapInsert rest k e

/-- Lookup in the grouping map (JS `Map.get`). -/
def mapLookup (m : List (String × List Elem)) (k : String) : Option (List Elem) :=
  (m.find? (fun p => p.1 == k)).map (·.2)

/-- `_mapElementsByAttribute` (source lines 355-368): group elements by
the trimmed value of the attribute, skipping empty values. -/
def mapElementsByAttribute (elements : List Elem) (attrName : String) :
    List (String × List Elem) :=
  elements.foldl
    (fun m e =>
      match getAttrVal e attrName with
      | some raw => let v := jsTrim raw; if v = "" then m else mapInsert m v e
      | none => m)
    []

/-- The parent-side grouping map built by `_processAttributeBasedPairing`
from `document.querySelectorAll('[parentAttribut]')`. -/
def pairParentMap (cfg : Config) (doc : List Elem) : List (String × List Elem) :=
  mapElementsByAttribute (doc.filter (fun e => (getAttrVal e cfg.parentAttribut).isSome))
    cfg.parentAttribut

/-- The trigger-side grouping map built by
`_processAttributeBasedPairing` from
`document.querySelectorAll('[triggerAttribut]')`. -/
def pairTriggerMap (cfg : Config) (doc : List Elem) : List (String × List Elem) :=
  mapElementsByAttribute (doc.filter (fun e => (getAttrVal e cfg.triggerAttribut).isSome))
    cfg.triggerAttribut

/-- `_processAttributeBasedPairing` (source lines 318-345): for every
attribute value present on both sides, push the full cross-product of
(parent, trigger) pairs, each with `repeatConfiguration` 1 and both
pairing attributes cleared. -/
def pairedConfig (cfg : Config) (parent trigger : Elem) : Config :=
  { cfg with
    parentElement := .el parent
    triggerElement := .el trigger
    repeatConfiguration := 1
    triggerAttribut := ""
    parentAttribut := "" }

/-- The body of `_processAttributeBasedPairing`'s `forEach` (source
lines 328-344): for one parent-side entry, the cross-product with the
matching trigger group, or nothing when the value is absent on the
trigger side. -/
def pairEntry (cfg : Config) (tm : List (String × List Elem))
    (p : String × List Elem) : List Config :=
  match mapLookup tm p.1 with
  | some triggers =>
    p.2.flatMap (fun parent => triggers.map (fun trigger => pairedConfig cfg parent trigger))
  | none => []

def processAttributeBasedPairing (cfg : Config) (doc : List Elem) : List Config :=
  (pairParentMap cfg doc).flatMap (pairEntry cfg (pairTriggerMap cfg doc))

/-- The suffixing helper of `_processRepeatConfiguration` (source line
380): `str ? (str.endsWith(suffix) ? str : str + suffix) : ""`. -/
def jsAppendSuffix (sfx str : String) : String :=
  if str = "" then "" else if jsEndsWith str sfx then str else str ++ sfx

/-- Suffixing applied to a stored element reference.  `appendSuffix`
(source line 380) evaluates `str.endsWith(suffix)` on any truthy value,
so a direct element reference — truthy but without an `endsWith`
method — raises a TypeError that aborts `setup`; only string selectors
succeed. -/
def jsAppendSuffixRef (sfx : String) : ElemRef → Except String ElemRef
  | .sel s => .ok (.sel (jsAppendSuffix sfx s))
  | .el _ => .error "TypeError: str.endsWith is not a function"

/-- One replica of `_processRepeatConfiguration`'s loop body (source
lines 378-390) for 1-based replica index i: suffix both references
(parent first), propagate a TypeError. -/
def buildReplica (cfg : Config) (i : Nat) : Except String Config :=
  let sfx := if i = 1 then "" else "-" ++ toString i
  match jsAppendSuffixRef sfx cfg.parentElement with
  | .error e => .error e
  | .ok parentElement =>
    match jsAppendSuffixRef sfx cfg.triggerElement with
    | .error e => .error e
    | .ok triggerElement =>
      .ok { cfg with
        parentElement := parentElement
        triggerElement := triggerElement
        repeatConfiguration := 1 }

/-- The replication loop over the 1-based indices, pushing replicas in
order and stopping at the first thrown error. -/
def buildReplicas (cfg : Config) : List Nat → Except String (List Config)
  | [] => .ok []
  | i :: rest =>
    match buildReplica cfg i with
    | .error e => .error e
    | .ok c =>
      match buildReplicas cfg rest with
      | .error e => .error e
      | .ok cs => .ok (c :: cs)

/-- `_processRepeatConfiguration` (source lines 377-392): emit
`repeatCount` value-copies; replica 1 keeps the selectors, replica i >= 2
appends "-i" to each selector unless it already ends in that suffix; a
non-string element reference raises a TypeError. -/
def processRepeatConfiguration (cfg : Config) (repeatCount : Nat) :
    Except String (List Config) :=
  buildReplicas cfg ((List.range repeatCount).map (· + 1))

/-- The successful replica for string-selector references: what
`buildReplica` returns when both references are selectors. -/
def replicaSel (cfg : Config) (sp s : String) (i : Nat) : Config :=
  let sfx := if i = 1 then "" else "-" ++ toString i
  { cfg with
    parentElement := .sel (jsAppendSuffix sfx sp)
    triggerElement := .sel (jsAppendSuffix sfx s)
    repeatConfiguration := 1 }

/-- Expansion of one normalized rule (the branch at source lines
276-280): attribute pairing when both pairing attributes are non-empty,
replication otherwise; only the replication path can throw. -/
def expandOne (doc : List Elem) (r : RawConfig) : Except String (List Config) :=
  let m := (normalizeRule r).1
  if m.triggerAttribut ≠ "" ∧ m.parentAttribut ≠ "" then
    .ok (processAttributeBasedPairing m doc)
  else processRepeatConfiguration m (normalizeRule r).2

/-- The per-rule loop of `setup` (source lines 226-281): process each
declaration in order into the flat list of expanded configs; a thrown
TypeError aborts the whole loop. -/
def expandAll (doc : List Elem) : List RawConfig → Except String (List Config)
  | [] => .ok []
  | r :: rest =>
    match expandOne doc r with
    | .error e => .error e
    | .ok cs =>
      match expandAll doc rest with
      | .error e => .error e
      | .ok rest' => .ok (cs ++ rest')

/-- The constructor's top-level argument: an ordered list of raw rule
declarations, or any non-list value. -/
inductive ConfigsInput where
  | list (xs : List RawConfig)
  | notList
deriving DecidableEq, Repr

/-- JS `(a % b) === 0` for the selection stride: with a zero divisor the
JS remainder is NaN, which compares unequal to 0. -/
def jsRemIsZero (a b : Nat) : Bool :=
  if b = 0 then false else a % b == 0

/-- The target-selection test of `_initClasses` (source line 584):
`index >= startIndex && index <= endIndex && (index - startIndex) %
frequency === 0` with `startIndex = start - 1` and `endIndex = end === 0
? Infinity : end - 1`; `index` is the 0-based position in the freshly
queried target sequence. -/
def selectedIdx (cfg : Config) (index : Nat) : Bool :=
  decide (cfg.start - 1 ≤ index) &&
    (cfg.endIdx == 0 || decide (index ≤ cfg.endIdx - 1)) &&
    jsRemIsZero (index - (cfg.start - 1)) cfg.frequency

/-- The per-element mutation of `_initClasses` (source lines 589-610),
run inside the requestAnimationFrame callback.  For a remove pass with
`topAddClasses` set, both `topAddClasses` and `addClasses` are removed;
for an add pass with `topAddClasses` set, the element's own rectangle is
inspected: fully above the viewport adds `topAddClasses` and removes
`addClasses`, fully below adds `addClasses` and removes
`topAddClasses`, otherwise nothing changes. -/
def mutateElem (cfg : Config) (vh : Int) (action : JsAction) (e : Elem) : Elem :=
  match action with
  | .remove =>
    if cfg.topAddClasses ≠ [] then
      { e with classes := classListRemove e.classes (cfg.topAddClasses ++ cfg.addClasses) }
    else
      { e with classes := classListRemove e.classes cfg.removeClasses }
  | .add =>
    if cfg.topAddClasses ≠ [] then
      if e.rectBottom < 0 then
        { e with classes := classListRemove (classListAdd e.classes cfg.topAddClasses) cfg.addClasses }
      else if e.rectTop > vh then
        { e with classes := classListRemove (classListAdd e.classes cfg.addClasses) cfg.topAddClasses }
      else e
    else
      { e with classes := classListAdd e.classes cfg.addClasses }

/-- `_initClasses` over the queried target sequence (source lines
583-618): returns the updated sequence and, when a callback is present,
the list of `callback(element, action)` invocations, one per selected
element (the element argument carries its post-mutation state). -/
def initClasses (cfg : Config) (vh : Int) (action : JsAction) (targets : List Elem) :
    List Elem × List (Elem × JsAction) :=
  (targets.enum.map (fun p => if selectedIdx cfg p.1 then mutateElem cfg vh action p.2 else p.2),
   if cfg.hasCallback then
     (targets.enum.filter (fun p => selectedIdx cfg p.1)).map
       (fun p => (mutateElem cfg vh action p.2, action))
   else [])

/-- Parent-scope resolution inside `_initClasses` (source lines
573-577): default to the document (`none`); a string selector is
resolved with `getElement(...) || document`; a direct element reference
is used as is. -/
def resolveParentScope (cfg : Config) (doc : List Elem) : Option Elem :=
  match cfg.parentElement with
  | .el e => some e
  | .sel s =>
    if s ≠ "" then
      match getElementFn doc s with
      | some p => some p
      | none => none
    else none

/-- The freshly queried target sequence of a mutation pass
(`parent.querySelectorAll(targetClass)`, source line 580): all matching
elements of the document when the scope is the document, otherwise the
matching descendants of the resolved parent. -/
def targetsOf (cfg : Config) (doc : List Elem) : List Elem :=
  match resolveParentScope cfg doc with
  | none => doc.filter (fun e => cssMatches e cfg.targetClass)
  | some p => doc.filter (fun e => cssMatches e cfg.targetClass && e.ancestors.contains p.eid)

/-- Trigger-element resolution in `initEventListeners` (source lines
471-482): a falsy (empty) selector leaves the trigger null; a direct
element reference is kept; a string is resolved with `getElement`. -/
def resolveTrigger (ref : ElemRef) (doc : List Elem) : Option Elem :=
  match ref with
  | .el e => some e
  | .sel s => if s ≠ "" then getElementFn doc s else none

/-- JS truthiness of a stored trigger/parent reference: the empty
string is falsy, any other string and any element reference is truthy. -/
def truthyRef : ElemRef → Bool
  | .sel s => !(s == "")
  | .el _ => true

/-- The trigger kinds with a registered handler (source lines 453-457);
any other event name falls through to `_applyImmediateClasses`. -/
def eventHandlerNames : List String := ["click", "hover", "scrollInView"]

/-- The per-config binding step of `initEventListeners` (source lines
460-525): resolve the trigger reference; a truthy reference that
resolves to nothing is silently skipped (line 482); otherwise a known
handler is invoked with the resolved element and all three handlers
dereference it (addEventListener for click/hover, the side-list
initialization for scrollInView), so a null trigger raises a TypeError;
an unknown event name applies classes immediately without touching the
trigger element (those construction-time label mutations are not
tracked at this level). -/
def bindConfig (doc : List Elem) (cfg : Config) : Except String Unit :=
  let triggerElement := resolveTrigger cfg.triggerElement doc
  if truthyRef cfg.triggerElement && triggerElement.isNone then .ok ()
  else if eventHandlerNames.contains cfg.eventName then
    match triggerElement with
    | some _ => .ok ()
    | none => .error "TypeError: Cannot read properties of null"
  else .ok ()

/-- The `forEach` of `initEventListeners` over the processed configs: a
thrown TypeError aborts it. -/
def bindAll (doc : List Elem) : List Config → Except String Unit
  | [] => .ok ()
  | cfg :: rest =>
    match bindConfig doc cfg with
    | .error e => .error e
    | .ok _ => bindAll doc rest

/-- Construction (source lines 161-187 plus `setup`, lines 195-285,
run synchronously when the document is ready): a non-list argument
throws the documented Error; a list is normalized and expanded rule by
rule, then `initEventListeners` (line 284) binds every expanded config;
a TypeError thrown in either stage aborts construction. -/
def construct (input : ConfigsInput) (doc : List Elem) : Except String (List Config) :=
  match input with
  | .notList => .error "Invalid classConfigs parameter. An array is expected."
  | .list xs =>
    match expandAll doc xs with
    | .error e => .error e
    | .ok configs =>
      match bindAll doc configs with
      | .error e => .error e
      | .ok _ => .ok configs

/-- Runtime state of one expanded rule: the (mutable) config, the
document, whether the rule is still registered with its visibility
observer (element observed and config in the element's side list), the
resolved trigger id for the trailing callback argument, the record of
user-callback invocations, and ghost counters of executed add/remove
mutation passes. -/
structure EngState where
  cfg : Config
  doc : List Elem
  registered : Bool
  trigger : Option String
  userCalls : List (Option String × JsAction)
  applyPasses : Nat
  removePasses : Nat
deriving DecidableEq, Repr

/-- The initial runtime state of a rule. -/
def initState (cfg : Config) (doc : List Elem) (trigger : Option String) : EngState :=
  { cfg := cfg, doc := doc, registered := true, trigger := trigger
    userCalls := [], applyPasses := 0, removePasses := 0 }

/-- Write mutated target elements back into the document (elements are
identified by their id, assumed unique). -/
def updateDoc (doc : List Elem) (upd : List Elem) : List Elem :=
  doc.map (fun e =>
    match upd.find? (fun u => u.eid == e.eid) with
    | some u => u
    | none => e)

/-- One invocation of `config.callback` for a scrollInView rule.  For a
`once` rule, `_handleScrollInView` (source lines 750-763) has replaced
`config.callback` with a wrapper that forwards to the original callback
and, when the action is "remove", unobserves the element; the `splice`
of the side-list entry searches for the original config object while the
list stores a spread copy, so only the unobserve has an effect. -/
def visInvoke (st : EngState) (a : JsAction) (who : Option String) : EngState :=
  let st' :=
    if st.cfg.hasCallback then { st with userCalls := st.userCalls ++ [(who, a)] } else st
  if st.cfg.once ∧ a = .remove then { st' with registered := false } else st'

/-- One invocation of `config.callback` for a click or hover rule (no
wrapper installed). -/
def plainInvoke (st : EngState) (a : JsAction) (who : Option String) : EngState :=
  if st.cfg.hasCallback then { st with userCalls := st.userCalls ++ [(who, a)] } else st

/-- The debounced add/remove bodies (source lines 487-514), flushed at
the next animation frame, with the per-pass rAF-deferred mutations and
per-element callbacks run at the end of the step:
add: if `!once || !classesAdded`, run the add mutation pass, set
`classesAdded`, invoke `callback(trigger || null, "add")`, then the
deferred per-element mutations and callbacks; remove: if `!once`, run
the remove pass, clear `classesAdded`, invoke the trailing callback,
then the deferred work.  `invoke` is the callback entry point (wrapped
for scrollInView `once` rules, plain otherwise). -/
def firePass (invoke : EngState → JsAction → Option String → EngState) (vh : Int)
    (st : EngState) (a : JsAction) : EngState :=
  let tsCalls := initClasses st.cfg vh a (targetsOf st.cfg st.doc)
  let st1 :=
    match a with
    | .add => { st with cfg := { st.cfg with classesAdded := true },
                        applyPasses := st.applyPasses + 1 }
    | .remove => { st with cfg := { st.cfg with classesAdded := false },
                           removePasses := st.removePasses + 1 }
  let st2 := invoke st1 a st1.trigger
  let st3 := { st2 with doc := updateDoc st2.doc tsCalls.1 }
  tsCalls.2.foldl (fun s c => invoke s c.2 (some c.1.eid)) st3

/-- The guards of the two debounced bodies: the add body runs unless the
rule is `once` and already applied; the remove body runs unless the rule
is `once`. -/
def fireBody (invoke : EngState → JsAction → Option String → EngState) (vh : Int)
    (st : EngState) (a : JsAction) : EngState :=
  match a with
  | .add =>
    if ¬st.cfg.once ∨ ¬st.cfg.classesAdded then firePass invoke vh st .add else st
  | .remove =>
    if ¬st.cfg.once then firePass invoke vh st .remove else st

/-- A visibility-crossing notification delivered by the shared
IntersectionObserver: the intersection ratio and the observed element's
bounding rectangle. -/
structure Notif where
  ratioValue : Rat
  top : Int
  bottom : Int
deriving DecidableEq, Repr

/-- The notification for an element in a static layout. -/
def notifOf (e : Elem) : Notif := { ratioValue := 0, top := e.rectTop, bottom := e.rectBottom }

/-- The per-rule branch of the observer callback (source lines 692-726):
with `topAddClasses` non-empty, dispatch on the observed element's
rectangle (fully above: add pass; fully below: remove pass; otherwise
nothing); with `switchAction`, the two threshold tests fire remove/add;
otherwise they fire add/remove.  Both threshold tests are independent
`if`s and can both fire in one notification. -/
def visDispatch (cfg : Config) (vh : Int) (n : Notif) : List JsAction :=
  if cfg.topAddClasses ≠ [] then
    if n.bottom < 0 then [.add]
    else if n.top > vh then [.remove]
    else []
  else if cfg.switchAction then
    (if cfg.entryThreshold / 100 ≤ n.ratioValue then [.remove] else []) ++
      (match cfg.exitThreshold with
       | some x => if n.ratioValue < x / 100 then [.add] else []
       | none => [])
  else
    (if cfg.entryThreshold / 100 ≤ n.ratioValue then [.add] else []) ++
      (match cfg.exitThreshold with
       | some x => if n.ratioValue < x / 100 then [.remove] else []
       | none => [])

/-- Processing of one visibility notification for one registered rule:
an unobserved element receives no notification; otherwise the
dispatched debounced actions run in order. -/
def visNotifStep (vh : Int) (st : EngState) (n : Notif) : EngState :=
  if st.registered then (visDispatch st.cfg vh n).foldl (fireBody visInvoke vh) st
  else st

/-- One click activation of `_handleClick` (source lines 631-643)
together with its animation-frame flush: the handler picks the action
from the current `classesAdded`, schedules the corresponding debounced
body, flips `classesAdded` synchronously, and invokes
`config.callback(element, action)`; the scheduled body then runs at the
next frame and reads the already-flipped flag. -/
def clickStep (vh : Int) (st : EngState) : EngState :=
  let action : JsAction := if st.cfg.classesAdded then .remove else .add
  let st1 := { st with cfg := { st.cfg with classesAdded := !st.cfg.classesAdded } }
  let st2 := plainInvoke st1 action st1.trigger
  fireBody plainInvoke vh st2 action

/-! ### Concrete sample documents, configurations, and invariants used by the theorems below -/

/-- The fully defaulted config: normalization of an empty declaration,
which keeps every default of `defaultConfig` (source lines 200-223). -/
def defaultedConfig : Config := (normalizeRule {}).1

/-- A sample target element carrying the class "it". -/
def itemElem (i : String) : Elem :=
  { eid := i, classes := ["it"], attrs := [], ancestors := [], rectTop := 0, rectBottom := 0 }

/-- A sample element carrying the class "x". -/
def xElem (i : String) : Elem :=
  { eid := i, classes := ["x"], attrs := [], ancestors := [], rectTop := 0, rectBottom := 0 }

/-- A rule whose container selector "missing" resolves to nothing. -/
def c9cfg : Config :=
  { defaultedConfig with parentElement := .sel "missing", targetClass := ".it" }

/-- The selection scenario rule: startIndex 2, endIndex 4, stride 2. -/
def scn7 : Config :=
  { defaultedConfig with
    start := 2
    endIdx := 4
    frequency := 2
    hasCallback := true
    addClasses := ["m"]
    targetClass := ".it" }

/-- A rule declaration with every enumerated per-field defect. -/
def badRule : RawConfig :=
  { easingMode := some "bouncy"
    entryThreshold := some (.num 150)
    exitThreshold := some (.num (-5))
    addClasses := some .notArr
    repeatConfiguration := some (.num 0) }

/-- The same defective rule with a resolvable trigger selector. -/
def fixableRule : RawConfig := { badRule with triggerElement := some (ElemRef.sel "t") }

/-- An element carrying one pairing attribute. -/
def pairElem (i attr v : String) : Elem :=
  { eid := i, classes := [], attrs := [(attr, v)], ancestors := [], rectTop := 0, rectBottom := 0 }

/-- A rule declaring both pairing attributes. -/
def c5cfg : Config :=
  { defaultedConfig with triggerAttribut := "data-t", parentAttribut := "data-p" }

/-- A document with two containers and three triggers sharing the value
"g1", plus a one-sided container value "solo" and a one-sided trigger
value "alone". -/
def c5doc : List Elem :=
  [pairElem "p1" "data-p" "g1", pairElem "t1" "data-t" "g1",
   pairElem "p2" "data-p" "g1", pairElem "t2" "data-t" "g1",
   pairElem "p3" "data-p" "solo", pairElem "t3" "data-t" "g1",
   pairElem "t4" "data-t" "alone"]

/-- The C1 invariant of a `once` visibility rule: the rule stays
registered forever, no remove pass ever runs, the apply budget is one,
and the apply pass has not run as long as `classesAdded` is clear. -/
def OnceInv (st : EngState) : Prop :=
  st.cfg.once = true ∧ st.registered = true ∧ st.removePasses = 0 ∧
    st.applyPasses ≤ 1 ∧ (st.cfg.classesAdded = false → st.applyPasses = 0)

/-- A `once` direction-aware visibility rule. -/
def c1cfg : Config :=
  { defaultedConfig with
    eventName := "scrollInView"
    once := true
    hasCallback := true
    topAddClasses := ["past"]
    addClasses := ["vis"]
    targetClass := ".it" }

/-- A crossing notification with the element fully above the viewport. -/
def c1notif : Notif := { ratioValue := 0, top := -300, bottom := -100 }

/-- A `once` click rule. -/
def c3cfg : Config :=
  { defaultedConfig with
    once := true
    hasCallback := true
    addClasses := ["on"]
    targetClass := ".it" }

/-- A plain add rule with a callback. -/
def c4cfg : Config :=
  { defaultedConfig with hasCallback := true, addClasses := ["x"], targetClass := ".it" }

/-- A direction-aware rule: topAddLabels "past", addLabels "future". -/
def c2cfg : Config :=
  { defaultedConfig with
    hasCallback := true
    topAddClasses := ["past"]
    addClasses := ["future"]
    targetClass := ".it" }

/-- An element fully below the viewport (not yet reached), already
carrying the "future" label. -/
def belowElem : Elem :=
  { eid := "e", classes := ["it", "future"], attrs := [], ancestors := [],
    rectTop := 900, rectBottom := 1000 }

/-- An element fully above the viewport (scrolled past). -/
def aboveElem : Elem :=
  { eid := "e", classes := ["it"], attrs := [], ancestors := [],
    rectTop := -300, rectBottom := -100 }

/-! ### Basic lemmas about the DOM primitives -/

theorem mem_classListAdd {ns cs : List String} {c : String} :
    c ∈ classListAdd cs ns ↔ c ∈ cs ∨ c ∈ ns := by
  induction ns generalizing cs with
  | nil => simp [classListAdd]
  | cons n rest ih =>
    have step : classListAdd cs (n :: rest) =
        classListAdd (if n ∈ cs then cs else cs ++ [n]) rest := rfl
    rw [step, ih]
    by_cases h : n ∈ cs
    · simp only [if_pos h, List.mem_cons]
      constructor
      · rintro (hc | hc) <;> tauto
      · rintro (hc | rfl | hc) <;> tauto
    · simp only [if_neg h, List.mem_append, List.mem_singleton, List.mem_cons]
      tauto

theorem mem_classListRemove {cs rs : List String} {c : String} :
    c ∈ classListRemove cs rs ↔ c ∈ cs ∧ ¬ c ∈ rs := by
  simp [classListRemove, List.mem_filter]

theorem mutateElem_eid (cfg : Config) (vh : Int) (a : JsAction) (e : Elem) :
    (mutateElem cfg vh a e).eid = e.eid := by
  cases a <;> simp only [mutateElem] <;> (repeat' split) <;> rfl

/-- C9: a mutation pass whose rule has a string container selector that
resolves to no element (and likewise a rule with no container selector,
the empty string) queries its target sequence against the entire
document: the scope silently widens from the missing container to the
document instead of the mutation being skipped or failing. -/
theorem c9_missing_container_document_scope (cfg : Config) (doc : List Elem) (s : String)
    (h1 : cfg.parentElement = ElemRef.sel s) (h2 : getElementFn doc s = none) :
    resolveParentScope cfg doc = none ∧
      targetsOf cfg doc = doc.filter (fun e => cssMatches e cfg.targetClass) := by
  have hscope : resolveParentScope cfg doc = none := by
    simp only [resolveParentScope, h1]
    by_cases hs : s = ""
    · simp [hs]
    · simp [hs, h2]
  exact ⟨hscope, by simp [targetsOf, hscope]⟩

/-- C10: resolution of a trigger or container selector string: a string
starting with "." binds the first document-order element matching it as
a CSS selector; any other non-empty string is looked up as an element id
(never as a CSS selector), so a selector such as "#x" or a tag selector
only resolves through the id lookup; in both modes at most one element
is bound. -/
theorem c10_selector_resolution (doc : List Elem) (s : String) (h : s ≠ "") :
    (jsStartsWith s "." = true →
        resolveTrigger (ElemRef.sel s) doc = (doc.filter (fun e => cssMatches e s)).head?) ∧
      (jsStartsWith s "." = false →
        resolveTrigger (ElemRef.sel s) doc = (doc.filter (fun e => e.eid == s)).head?) := by
  constructor <;> intro hdot <;>
    simp [resolveTrigger, getElementFn, h, hdot, List.filter_head?]

/-- C7: the selection gate of a mutation pass picks exactly the 1-based
positions i with start <= i, (end = 0 or i <= end), and
stride | (i - start); `selectedIdx cfg index` is that gate applied to
the 0-based index into the freshly queried target sequence. -/
theorem c7_selection_stride (cfg : Config) (i : Nat)
    (h1 : 1 ≤ cfg.start) (h2 : 1 ≤ cfg.frequency) :
    selectedIdx cfg i = true ↔
      (cfg.start ≤ i + 1 ∧ (cfg.endIdx = 0 ∨ i + 1 ≤ cfg.endIdx) ∧
        cfg.frequency ∣ (i + 1 - cfg.start)) := by
  have hf : cfg.frequency ≠ 0 := by omega
  have heq : i - (cfg.start - 1) = i + 1 - cfg.start := by omega
  simp only [selectedIdx, jsRemIsZero, if_neg hf, Bool.and_eq_true, Bool.or_eq_true,
    decide_eq_true_eq, beq_iff_eq, Nat.dvd_iff_mod_eq_zero, heq]
  constructor
  · rintro ⟨⟨ha, hb⟩, hc⟩
    exact ⟨by omega, by omega, hc⟩
  · rintro ⟨ha, hb, hc⟩
    exact ⟨⟨by omega, by omega⟩, hc⟩

/-- Witness for C9: with the container selector "missing" absent from the
document, the target query runs against the whole document. -/
theorem c9_missing_container_witness :
    resolveParentScope c9cfg [itemElem "a", itemElem "b"] = none ∧
      targetsOf c9cfg [itemElem "a", itemElem "b"] =
        [itemElem "a", itemElem "b"].filter (fun e => cssMatches e c9cfg.targetClass) :=
  c9_missing_container_document_scope c9cfg [itemElem "a", itemElem "b"] "missing"
    (by decide) (by decide)

/-- Witness for C10: ".x" binds the first of two matching elements; "#d1"
binds nothing even though an element with id "d1" exists. -/
theorem c10_selector_resolution_witness :
    resolveTrigger (ElemRef.sel ".x") [xElem "d1", xElem "d2"] =
        ([xElem "d1", xElem "d2"].filter (fun e => cssMatches e ".x")).head? ∧
      resolveTrigger (ElemRef.sel "#d1") [xElem "d1", xElem "d2"] = none ∧
      resolveTrigger (ElemRef.sel ".x") [xElem "d1", xElem "d2"] = some (xElem "d1") :=
  ⟨(c10_selector_resolution [xElem "d1", xElem "d2"] ".x" (by decide)).1 (by decide),
    by decide, by decide⟩

/-- Witness for C7: in the sequence e0..e4 exactly the 1-based positions
2 and 4 (elements e1 and e3) are selected and mutated. -/
theorem c7_selection_witness :
    (selectedIdx scn7 1 = true) ∧ (selectedIdx scn7 0 = false) ∧
      ((initClasses scn7 800 JsAction.add
          [itemElem "e0", itemElem "e1", itemElem "e2", itemElem "e3", itemElem "e4"]).2.map
        (fun c => c.1.eid) = ["e1", "e3"]) :=
  ⟨(c7_selection_stride scn7 1 (by decide) (by decide)).mpr (by decide), by decide, by decide⟩

theorem normalizeRule_parentElement (r : RawConfig) :
    (normalizeRule r).1.parentElement = r.parentElement.getD (ElemRef.sel "") := rfl

theorem normalizeRule_triggerElement (r : RawConfig) :
    (normalizeRule r).1.triggerElement = r.triggerElement.getD (ElemRef.sel "") := rfl

theorem buildReplicas_sel (cfg : Config) (sp s : String)
    (hp : cfg.parentElement = ElemRef.sel sp) (ht : cfg.triggerElement = ElemRef.sel s) :
    ∀ l : List Nat, buildReplicas cfg l = Except.ok (l.map (replicaSel cfg sp s)) := by
  intro l
  induction l with
  | nil => rfl
  | cons i rest ih =>
    have hbr : buildReplica cfg i = Except.ok (replicaSel cfg sp s i) := by
      unfold buildReplica replicaSel
      rw [hp, ht]
      rfl
    unfold buildReplicas
    rw [hbr, ih]
    rfl

theorem expandAll_append (doc : List Elem) (xs ys : List RawConfig) (b : List Config)
    (hy : expandAll doc ys = Except.ok b) :
    ∀ a : List Config, expandAll doc xs = Except.ok a →
      expandAll doc (xs ++ ys) = Except.ok (a ++ b) := by
  induction xs with
  | nil =>
    intro a hx
    simp only [expandAll] at hx
    cases hx
    simpa using hy
  | cons r rest ih =>
    intro a hx
    simp only [expandAll] at hx
    show expandAll doc (r :: (rest ++ ys)) = Except.ok (a ++ b)
    simp only [expandAll]
    cases hr : expandOne doc r with
    | error e =>
      rw [hr] at hx
      exact Except.noConfusion hx
    | ok cs =>
      rw [hr] at hx
      cases hrest : expandAll doc rest with
      | error e =>
        rw [hrest] at hx
        exact Except.noConfusion hx
      | ok rest' =>
        rw [hrest] at hx
        have ha : cs ++ rest' = a := by injection hx
        rw [ih rest' hrest, ← ha]
        simp [List.append_assoc]

/-- C8 (amended): construction always raises an error when the top-level
argument is not an ordered list; for a list argument each enumerated
per-field problem of an individual rule (invalid easing, out-of-range
threshold, non-array label list, invalid repeat count) degrades to its
safe default without aborting that rule's normalization and expansion
(any rule whose element references are string selectors expands
successfully), and expansion processes sibling rules independently;
"not a list" is however not the only error path: construction of a list
can still abort, in the replication suffixer on a direct element
reference or in the event binder on a rule with a known trigger kind
and a null trigger element. -/
theorem c8_construction_errors :
    (∀ doc : List Elem, (construct ConfigsInput.notList doc).isOk = false) ∧
      (∀ (r : RawConfig) (e : String), r.easingMode = some e →
        ¬ e ∈ supportedEasings → (normalizeRule r).1.easingMode = "ease") ∧
      (∀ (r : RawConfig) (q : Rat), r.entryThreshold = some (JNum.num q) →
        ¬(0 ≤ q ∧ q ≤ 100) → (normalizeRule r).1.entryThreshold = 0) ∧
      (∀ (r : RawConfig) (q : Rat), r.exitThreshold = some (JNum.num q) →
        ¬(0 ≤ q ∧ q ≤ 100) → (normalizeRule r).1.exitThreshold = none) ∧
      (∀ (r : RawConfig), r.addClasses = some JStrList.notArr →
        (normalizeRule r).1.addClasses = []) ∧
      (∀ (r : RawConfig) (q : Rat), r.repeatConfiguration = some (JNum.num q) →
        q < 1 → (normalizeRule r).2 = 1) ∧
      (∀ (doc : List Elem) (r : RawConfig),
        (∀ e : Elem, r.parentElement ≠ some (ElemRef.el e)) →
        (∀ e : Elem, r.triggerElement ≠ some (ElemRef.el e)) →
        (expandOne doc r).isOk = true) ∧
      (∀ (doc : List Elem) (xs ys : List RawConfig) (a b : List Config),
        expandAll doc xs = Except.ok a → expandAll doc ys = Except.ok b →
        expandAll doc (xs ++ ys) = Except.ok (a ++ b)) := by
  refine ⟨?_, ?_, ?_, ?_, ?_, ?_, ?_, ?_⟩
  · intro doc
    rfl
  · intro r e h1 h2
    simp [normalizeRule, h1, h2]
  · intro r q h1 h2
    simp [normalizeRule, h1, validateThreshold, if_neg h2]
  · intro r q h1 h2
    simp [normalizeRule, h1, validateThreshold, if_neg h2]
  · intro r h1
    simp [normalizeRule, h1, cleanClasses]
  · intro r q h1 h2
    have : ¬ (1 : Rat) ≤ q := by exact not_le.mpr h2
    simp [normalizeRule, h1, computeRepeatCount, if_neg this]
  · intro doc r hp ht
    obtain ⟨sp, hsp⟩ : ∃ sp, (normalizeRule r).1.parentElement = ElemRef.sel sp := by
      rw [normalizeRule_parentElement]
      cases hrp : r.parentElement with
      | none => exact ⟨"", rfl⟩
      | some ref =>
        cases ref with
        | sel s0 => exact ⟨s0, rfl⟩
        | el e => exact absurd hrp (hp e)
    obtain ⟨st, hst⟩ : ∃ st, (normalizeRule r).1.triggerElement = ElemRef.sel st := by
      rw [normalizeRule_triggerElement]
      cases hrt : r.triggerElement with
      | none => exact ⟨"", rfl⟩
      | some ref =>
        cases ref with
        | sel s0 => exact ⟨s0, rfl⟩
        | el e => exact absurd hrt (ht e)
    simp only [expandOne]
    split
    · rfl
    · show (processRepeatConfiguration (normalizeRule r).1 (normalizeRule r).2).isOk = true
      unfold processRepeatConfiguration
      rw [buildReplicas_sel (normalizeRule r).1 sp st hsp hst]
      rfl
  · intro doc xs ys a b hx hy
    exact expandAll_append doc xs ys b hy a hx

/-- Counterexample for C8: the empty rule declaration is a list input
for which construction throws — the defaulted click rule has no trigger
selector, so `initEventListeners` passes a null element to
`_handleClick`, which dereferences it — refuting "errors only on a
non-list argument". -/
theorem c8_construction_counterexample :
    (construct (ConfigsInput.list [{}]) []).isOk = false ∧
      ConfigsInput.list [{}] ≠ ConfigsInput.notList := by
  constructor <;> decide

/-- Witness for C8: the non-list argument errors; every defective field
of `badRule` degrades to its default; the defective rule still expands;
and the same defects with a resolvable trigger construct end to end. -/
theorem c8_construction_witness :
    (construct ConfigsInput.notList []).isOk = false ∧
      (normalizeRule badRule).1.easingMode = "ease" ∧
      (normalizeRule badRule).1.entryThreshold = 0 ∧
      (normalizeRule badRule).1.exitThreshold = none ∧
      (normalizeRule badRule).1.addClasses = [] ∧
      (normalizeRule badRule).2 = 1 ∧
      (expandOne [] badRule).isOk = true ∧
      (construct (ConfigsInput.list [fixableRule]) [itemElem "t"]).isOk = true :=
  ⟨c8_construction_errors.1 [],
    c8_construction_errors.2.1 badRule "bouncy" rfl (by decide),
    c8_construction_errors.2.2.1 badRule 150 rfl (by norm_num),
    c8_construction_errors.2.2.2.1 badRule (-5) rfl (by norm_num),
    c8_construction_errors.2.2.2.2.1 badRule rfl,
    c8_construction_errors.2.2.2.2.2.1 badRule 0 rfl (by norm_num),
    c8_construction_errors.2.2.2.2.2.2.1 [] badRule
      (fun e h => Option.noConfusion h) (fun e h => Option.noConfusion h),
    by decide⟩

theorem jsEndsWith_iff {s p : String} : jsEndsWith s p = true ↔ p.data <:+ s.data := by
  simp [jsEndsWith, List.isSuffixOf_iff_suffix]

theorem jsAppendSuffix_empty (s : String) : jsAppendSuffix "" s = s := by
  by_cases hs : s = "" <;>
    simp [jsAppendSuffix, hs, jsEndsWith, List.isSuffixOf_iff_suffix]

/-- C6 (amended): a rule without attribute pairing whose parent and
trigger references are string selectors replicates successfully
`repeatCount` times; replica 1 keeps its selector strings unchanged;
for replica i in 2..N a non-empty selector is left untouched when it
already ends in the exact suffix "-i" and gets "-i" appended otherwise
(also when it ends in a different suffix), while an empty selector
string stays empty (the claim as stated would suffix the empty selector
too). -/
theorem c6_replication_suffix (cfg : Config) (rc i : Nat) (s sp : String)
    (h2 : 2 ≤ i) (hle : i ≤ rc) (hsel : cfg.triggerElement = ElemRef.sel s)
    (hpar : cfg.parentElement = ElemRef.sel sp) :
    ∃ repl, processRepeatConfiguration cfg rc = Except.ok repl ∧
      repl.length = rc ∧
      repl[0]?.map Config.triggerElement = some cfg.triggerElement ∧
      (s = "" → repl[i-1]?.map Config.triggerElement = some (ElemRef.sel "")) ∧
      (s ≠ "" → ("-" ++ toString i).data <:+ s.data →
        repl[i-1]?.map Config.triggerElement = some (ElemRef.sel s)) ∧
      (s ≠ "" → ¬ ("-" ++ toString i).data <:+ s.data →
        repl[i-1]?.map Config.triggerElement =
          some (ElemRef.sel (s ++ "-" ++ toString i))) := by
  have h0 : 0 < rc := by omega
  have hi1 : i - 1 < rc := by omega
  have hne1 : ¬ (i = 1) := by omega
  have hsucc : i - 1 + 1 = i := by omega
  refine ⟨((List.range rc).map (· + 1)).map (replicaSel cfg sp s),
    buildReplicas_sel cfg sp s hpar hsel _, by simp, ?_, ?_, ?_, ?_⟩
  · have hg0 : (((List.range rc).map (· + 1)).map (replicaSel cfg sp s))[0]? =
        some (replicaSel cfg sp s 1) := by
      simp [List.getElem?_map, List.getElem?_range h0]
    rw [hg0]
    simp [replicaSel, jsAppendSuffix_empty, hsel]
  all_goals
    have hgi : (((List.range rc).map (· + 1)).map (replicaSel cfg sp s))[i-1]? =
        some (replicaSel cfg sp s i) := by
      simp [List.getElem?_map, List.getElem?_range hi1, hsucc]
  · intro hs
    rw [hgi]
    simp [replicaSel, hne1, jsAppendSuffix, hs]
  · intro hs hsfx
    rw [hgi]
    have hjs : jsEndsWith s ("-" ++ toString i) = true := jsEndsWith_iff.mpr hsfx
    simp [replicaSel, hne1, jsAppendSuffix, hs, hjs, hsel]
  · intro hs hsfx
    rw [hgi]
    have hjs : ¬ jsEndsWith s ("-" ++ toString i) = true :=
      fun h => hsfx (jsEndsWith_iff.mp h)
    simp [replicaSel, hne1, jsAppendSuffix, hs, hjs, String.append_assoc]

/-- Counterexample for C6: with an empty trigger selector (the default)
and repeat count 2, the claim as stated predicts the suffixed trigger
"-2" for replica 2 (the empty string does not end in "-2"), but the
code leaves an empty selector empty. -/
theorem c6_replication_counterexample :
    (processRepeatConfiguration { defaultedConfig with triggerElement := ElemRef.sel "" }
        2).toOption.map (List.map Config.triggerElement) =
      some [ElemRef.sel "", ElemRef.sel ""] ∧
      ¬ ((processRepeatConfiguration { defaultedConfig with triggerElement := ElemRef.sel "" }
          2).toOption.map (List.map Config.triggerElement) =
        some [ElemRef.sel "", ElemRef.sel "-2"]) := by
  constructor <;> decide

/-- Witness for C6: trigger selector "t" with repeat count 3 yields the
replica triggers "t", "t-2", "t-3". -/
theorem c6_replication_witness :
    (∃ repl, processRepeatConfiguration
          { defaultedConfig with triggerElement := ElemRef.sel "t" } 3 = Except.ok repl ∧
        repl.length = 3 ∧
        repl[0]?.map Config.triggerElement =
          some ({ defaultedConfig with
            triggerElement := ElemRef.sel "t" } : Config).triggerElement ∧
        ("t" = "" → repl[1]?.map Config.triggerElement = some (ElemRef.sel "")) ∧
        ("t" ≠ "" → ("-" ++ toString 2).data <:+ "t".data →
          repl[1]?.map Config.triggerElement = some (ElemRef.sel "t")) ∧
        ("t" ≠ "" → ¬ ("-" ++ toString 2).data <:+ "t".data →
          repl[1]?.map Config.triggerElement =
            some (ElemRef.sel ("t" ++ "-" ++ toString 2)))) ∧
      (processRepeatConfiguration { defaultedConfig with triggerElement := ElemRef.sel "t" }
          3).toOption.map (List.map Config.triggerElement) =
        some [ElemRef.sel "t", ElemRef.sel "t-2", ElemRef.sel "t-3"] :=
  ⟨c6_replication_suffix { defaultedConfig with triggerElement := ElemRef.sel "t" } 3 2 "t" ""
    (by decide) (by decide) rfl rfl, by decide⟩

/-! ### Lemmas about the pairing maps -/

theorem mem_keys_mapInsert {m : List (String × List Elem)} {k k' : String} {e : Elem} :
    k' ∈ (mapInsert m k e).map Prod.fst ↔ k' ∈ m.map Prod.fst ∨ k' = k := by
  induction m with
  | nil => simp [mapInsert]
  | cons p rest ih =>
    obtain ⟨k0, es⟩ := p
    by_cases h : k0 = k
    · subst h
      simp [mapInsert]
      tauto
    · simp [mapInsert, h, ih]
      tauto

theorem keys_nodup_mapInsert {m : List (String × List Elem)} {k : String} {e : Elem}
    (h : (m.map Prod.fst).Nodup) : ((mapInsert m k e).map Prod.fst).Nodup := by
  induction m with
  | nil => simp [mapInsert]
  | cons p rest ih =>
    obtain ⟨k0, es⟩ := p
    simp only [List.map_cons, List.nodup_cons] at h
    by_cases hk : k0 = k
    · subst hk
      simpa [mapInsert] using h
    · simp only [mapInsert, if_neg hk, List.map_cons, List.nodup_cons]
      refine ⟨?_, ih h.2⟩
      rw [mem_keys_mapInsert]
      rintro (hm | rfl)
      · exact h.1 hm
      · exact hk rfl

theorem keys_nodup_mapElementsByAttribute (es : List Elem) (a : String) :
    ((mapElementsByAttribute es a).map Prod.fst).Nodup := by
  have main : ∀ (l : List Elem) (m : List (String × List Elem)), (m.map Prod.fst).Nodup →
      ((l.foldl
        (fun m e =>
          match getAttrVal e a with
          | some raw => let v := jsTrim raw; if v = "" then m else mapInsert m v e
          | none => m) m).map Prod.fst).Nodup := by
    intro l
    induction l with
    | nil => intro m hm; simpa using hm
    | cons e rest ih =>
      intro m hm
      simp only [List.foldl_cons]
      apply ih
      cases hga : getAttrVal e a with
      | none => simpa [hga] using hm
      | some raw =>
        by_cases hv : jsTrim raw = ""
        · simpa [hga, hv] using hm
        · simpa [hga, hv] using keys_nodup_mapInsert hm
  exact main es [] (by simp)

theorem mapLookup_cons_eq {k0 : String} {es : List Elem}
    {rest : List (String × List Elem)} : mapLookup ((k0, es) :: rest) k0 = some es := by
  simp [mapLookup]

theorem mapLookup_cons_ne {k0 k : String} {es : List Elem}
    {rest : List (String × List Elem)} (h : k0 ≠ k) :
    mapLookup ((k0, es) :: rest) k = mapLookup rest k := by
  simp [mapLookup, List.find?_cons, h]

theorem length_flatMap_map_const {α β γ : Type} (ps : List α) (ts : List β) (g : α → β → γ) :
    (ps.flatMap (fun p => ts.map (g p))).length = ps.length * ts.length := by
  induction ps with
  | nil => simp
  | cons p rest ih => simp [ih, Nat.succ_mul, Nat.add_comm]

theorem flatMap_eq_nil_of_forall {α β : Type} {l : List α} {f : α → List β}
    (h : ∀ a ∈ l, f a = []) : l.flatMap f = [] := by
  induction l with
  | nil => rfl
  | cons a rest ih =>
    rw [List.flatMap_cons, h a (by simp), List.nil_append]
    exact ih (fun a ha => h a (by simp [ha]))

theorem pairing_count_aux (cfg : Config) (tm : List (String × List Elem)) (v0 : String) :
    ∀ (pm : List (String × List Elem)), (pm.map Prod.fst).Nodup →
      (∀ p ∈ pm, p.1 ≠ v0 → mapLookup tm p.1 = none) →
      (pm.flatMap (pairEntry cfg tm)).length =
        ((mapLookup pm v0).getD []).length * ((mapLookup tm v0).getD []).length := by
  intro pm
  induction pm with
  | nil => simp [mapLookup]
  | cons p rest ih =>
    intro hnd hOnly
    obtain ⟨k, es⟩ := p
    simp only [List.map_cons, List.nodup_cons] at hnd
    rw [List.flatMap_cons, List.length_append]
    by_cases hk : k = v0
    · subst hk
      have hrest : rest.flatMap (pairEntry cfg tm) = [] := by
        apply flatMap_eq_nil_of_forall
        intro p hp
        have hne : p.1 ≠ k := by
          intro hcontra
          exact hnd.1 (hcontra ▸ List.mem_map_of_mem Prod.fst hp)
        simp [pairEntry, hOnly p (List.mem_cons_of_mem _ hp) hne]
      rw [hrest, mapLookup_cons_eq]
      cases hmt : mapLookup tm k with
      | some ts =>
        have hentry : pairEntry cfg tm (k, es) =
            es.flatMap (fun parent => ts.map (fun trigger => pairedConfig cfg parent trigger)) := by
          simp [pairEntry, hmt]
        rw [hentry, length_flatMap_map_const]
        simp
      | none =>
        simp [pairEntry, hmt]
    · have hhead : pairEntry cfg tm (k, es) = [] := by
        simp [pairEntry, hOnly (k, es) (by simp) hk]
      rw [hhead, mapLookup_cons_ne hk]
      simpa using ih hnd.2 (fun p hp => hOnly p (List.mem_cons_of_mem _ hp))

theorem pairing_fields (cfg : Config) (doc : List Elem) :
    ∀ r ∈ processAttributeBasedPairing cfg doc,
      r.repeatConfiguration = 1 ∧ r.triggerAttribut = "" ∧ r.parentAttribut = "" := by
  intro r hr
  simp only [processAttributeBasedPairing, List.mem_flatMap] at hr
  obtain ⟨p, _, hp⟩ := hr
  unfold pairEntry at hp
  cases hmt : mapLookup (pairTriggerMap cfg doc) p.1 with
  | none => rw [hmt] at hp; simp at hp
  | some ts =>
    rw [hmt] at hp
    simp only [List.mem_flatMap, List.mem_map] at hp
    obtain ⟨par, _, tr, _, rfl⟩ := hp
    exact ⟨rfl, rfl, rfl⟩

/-- C5: for a rule declaring both pairing attributes, when "g1" (here an
arbitrary value v0) is the only attribute value present on both the
container side and the trigger side, the Expander produces exactly
N x M ExpandedRules — the full cross-product of the N containers and M
triggers grouped under v0 — zero rules for every one-sided value, and
every produced rule has repeatCount 1 and both pairing attributes
cleared. -/
theorem c5_pairing_cross_product (cfg : Config) (doc : List Elem) (v0 : String)
    (hOnly : ∀ p ∈ pairParentMap cfg doc, p.1 ≠ v0 →
      mapLookup (pairTriggerMap cfg doc) p.1 = none) :
    (processAttributeBasedPairing cfg doc).length =
        ((mapLookup (pairParentMap cfg doc) v0).getD []).length *
          ((mapLookup (pairTriggerMap cfg doc) v0).getD []).length ∧
      ∀ r ∈ processAttributeBasedPairing cfg doc,
        r.repeatConfiguration = 1 ∧ r.triggerAttribut = "" ∧ r.parentAttribut = "" := by
  constructor
  · exact pairing_count_aux cfg (pairTriggerMap cfg doc) v0 (pairParentMap cfg doc)
      (keys_nodup_mapElementsByAttribute _ _) hOnly
  · exact pairing_fields cfg doc

/-- Witness for C5: the sample document yields exactly 2 x 3 = 6 paired
rules, all with repeat count 1 and cleared pairing attributes. -/
theorem c5_pairing_witness :
    (processAttributeBasedPairing c5cfg c5doc).length =
        ((mapLookup (pairParentMap c5cfg c5doc) "g1").getD []).length *
          ((mapLookup (pairTriggerMap c5cfg c5doc) "g1").getD []).length ∧
      (processAttributeBasedPairing c5cfg c5doc).length = 6 ∧
      ((mapLookup (pairParentMap c5cfg c5doc) "g1").getD []).length = 2 ∧
      ((mapLookup (pairTriggerMap c5cfg c5doc) "g1").getD []).length = 3 :=
  ⟨(c5_pairing_cross_product c5cfg c5doc "g1" (by decide)).1, by decide, by decide, by decide⟩

/-! ### Lemmas about callback invocations and pass bookkeeping -/

theorem visInvoke_doc (st : EngState) (a : JsAction) (w : Option String) :
    (visInvoke st a w).doc = st.doc := by
  unfold visInvoke
  split <;> split <;> rfl

theorem visInvoke_cfg (st : EngState) (a : JsAction) (w : Option String) :
    (visInvoke st a w).cfg = st.cfg := by
  unfold visInvoke
  split <;> split <;> rfl

theorem visInvoke_passes (st : EngState) (a : JsAction) (w : Option String) :
    (visInvoke st a w).applyPasses = st.applyPasses ∧
      (visInvoke st a w).removePasses = st.removePasses := by
  unfold visInvoke
  constructor <;> (split <;> split <;> rfl)

theorem visInvoke_add_registered (st : EngState) (w : Option String) :
    (visInvoke st JsAction.add w).registered = st.registered := by
  unfold visInvoke
  have h : ¬ (st.cfg.once = true ∧ JsAction.add = JsAction.remove) := by simp
  split <;> simp [h]

theorem foldl_visInvoke_doc (calls : List (Elem × JsAction)) :
    ∀ st : EngState,
      (calls.foldl (fun s c => visInvoke s c.2 (some c.1.eid)) st).doc = st.doc := by
  induction calls with
  | nil => intro st; rfl
  | cons c rest ih =>
    intro st
    rw [List.foldl_cons, ih, visInvoke_doc]

theorem foldl_visInvoke_cfg (calls : List (Elem × JsAction)) :
    ∀ st : EngState,
      (calls.foldl (fun s c => visInvoke s c.2 (some c.1.eid)) st).cfg = st.cfg := by
  induction calls with
  | nil => intro st; rfl
  | cons c rest ih =>
    intro st
    rw [List.foldl_cons, ih, visInvoke_cfg]

theorem foldl_visInvoke_passes (calls : List (Elem × JsAction)) :
    ∀ st : EngState,
      (calls.foldl (fun s c => visInvoke s c.2 (some c.1.eid)) st).applyPasses =
          st.applyPasses ∧
        (calls.foldl (fun s c => visInvoke s c.2 (some c.1.eid)) st).removePasses =
          st.removePasses := by
  induction calls with
  | nil => intro st; exact ⟨rfl, rfl⟩
  | cons c rest ih =>
    intro st
    rw [List.foldl_cons]
    refine ⟨(ih _).1.trans ?_, (ih _).2.trans ?_⟩
    · exact (visInvoke_passes st c.2 (some c.1.eid)).1
    · exact (visInvoke_passes st c.2 (some c.1.eid)).2

theorem initClasses_calls_action (cfg : Config) (vh : Int) (a : JsAction)
    (ts : List Elem) : ∀ c ∈ (initClasses cfg vh a ts).2, c.2 = a := by
  intro c hc
  simp only [initClasses] at hc
  split at hc
  · simp only [List.mem_map] at hc
    obtain ⟨p, _, rfl⟩ := hc
    rfl
  · simp at hc

theorem foldl_visInvoke_add_registered (calls : List (Elem × JsAction))
    (hcalls : ∀ c ∈ calls, c.2 = JsAction.add) :
    ∀ st : EngState,
      (calls.foldl (fun s c => visInvoke s c.2 (some c.1.eid)) st).registered =
        st.registered := by
  induction calls with
  | nil => intro st; rfl
  | cons c rest ih =>
    intro st
    rw [List.foldl_cons]
    rw [ih (fun c hc => hcalls c (List.mem_cons_of_mem _ hc))]
    rw [hcalls c (by simp), visInvoke_add_registered]

theorem firePass_vis_add (vh : Int) (st : EngState) :
    (firePass visInvoke vh st JsAction.add).cfg.once = st.cfg.once ∧
      (firePass visInvoke vh st JsAction.add).cfg.classesAdded = true ∧
      (firePass visInvoke vh st JsAction.add).registered = st.registered ∧
      (firePass visInvoke vh st JsAction.add).applyPasses = st.applyPasses + 1 ∧
      (firePass visInvoke vh st JsAction.add).removePasses = st.removePasses := by
  unfold firePass
  have hcalls := initClasses_calls_action st.cfg vh JsAction.add (targetsOf st.cfg st.doc)
  refine ⟨?_, ?_, ?_, ?_, ?_⟩
  · rw [foldl_visInvoke_cfg]
    show (visInvoke _ _ _).cfg.once = _
    rw [visInvoke_cfg]
  · rw [foldl_visInvoke_cfg]
    show (visInvoke _ _ _).cfg.classesAdded = _
    rw [visInvoke_cfg]
  · rw [foldl_visInvoke_add_registered _ hcalls]
    show (visInvoke _ _ _).registered = _
    rw [visInvoke_add_registered]
  · rw [(foldl_visInvoke_passes _ _).1]
    show (visInvoke _ _ _).applyPasses = _
    rw [(visInvoke_passes _ _ _).1]
  · rw [(foldl_visInvoke_passes _ _).2]
    show (visInvoke _ _ _).removePasses = _
    rw [(visInvoke_passes _ _ _).2]

theorem fireBody_once_inv (vh : Int) (st : EngState) (a : JsAction)
    (h : OnceInv st) : OnceInv (fireBody visInvoke vh st a) := by
  obtain ⟨h1, h2, h3, h4, h5⟩ := h
  cases a with
  | remove =>
    have hguard : ¬ (¬ st.cfg.once = true) := by simp [h1]
    simp only [fireBody, if_neg hguard]
    exact ⟨h1, h2, h3, h4, h5⟩
  | add =>
    by_cases hca : st.cfg.classesAdded = true
    · have hguard : ¬ (¬ st.cfg.once = true ∨ ¬ st.cfg.classesAdded = true) := by
        simp [h1, hca]
      simp only [fireBody, if_neg hguard]
      exact ⟨h1, h2, h3, h4, h5⟩
    · have hguard : (¬ st.cfg.once = true ∨ ¬ st.cfg.classesAdded = true) := Or.inr hca
      simp only [fireBody, if_pos hguard]
      obtain ⟨p1, p2, p3, p4, p5⟩ := firePass_vis_add vh st
      have hzero : st.applyPasses = 0 := h5 (by simpa using hca)
      refine ⟨p1.trans h1, ?_, p5.trans h3, ?_, ?_⟩
      · exact p3.trans h2
      · omega
      · intro hfalse
        rw [p2] at hfalse
        exact absurd hfalse (by simp)

theorem visNotifStep_once_inv (vh : Int) (st : EngState) (n : Notif)
    (h : OnceInv st) : OnceInv (visNotifStep vh st n) := by
  unfold visNotifStep
  split
  · have main : ∀ (acts : List JsAction) (st : EngState), OnceInv st →
        OnceInv (acts.foldl (fireBody visInvoke vh) st) := by
      intro acts
      induction acts with
      | nil => intro st h; exact h
      | cons a rest ih => intro st h; exact ih _ (fireBody_once_inv vh st a h)
    exact main _ _ h
  · exact h

/-- C1 (supporting theorem for the code defect): for a `once` visibility
rule, across any sequence of visibility-crossing notifications at most
one apply mutation pass runs and no remove pass ever runs, but the rule
is never unregistered from the Visibility Observer Pool: `registered`
stays true forever, because the unregistration wrapper only acts on a
"remove" callback action and the remove body is disabled by the `once`
guard. -/
theorem c1_once_visibility_single_apply_never_unregistered (cfg : Config) (vh : Int)
    (doc : List Elem) (tr : Option String) (ns : List Notif)
    (hOnce : cfg.once = true) :
    (ns.foldl (visNotifStep vh) (initState cfg doc tr)).applyPasses ≤ 1 ∧
      (ns.foldl (visNotifStep vh) (initState cfg doc tr)).removePasses = 0 ∧
      (ns.foldl (visNotifStep vh) (initState cfg doc tr)).registered = true := by
  have main : ∀ (ns : List Notif) (st : EngState), OnceInv st →
      OnceInv (ns.foldl (visNotifStep vh) st) := by
    intro ns
    induction ns with
    | nil => intro st h; exact h
    | cons n rest ih => intro st h; exact ih _ (visNotifStep_once_inv vh st n h)
  have h0 : OnceInv (initState cfg doc tr) := by
    refine ⟨hOnce, rfl, rfl, by simp [initState], fun _ => rfl⟩
  obtain ⟨_, h2, h3, h4, _⟩ := main ns _ h0
  exact ⟨h4, h3, h2⟩

/-- Witness for C1: after two qualifying crossings the `once` rule has
run exactly one apply pass and is still registered with the Pool. -/
theorem c1_once_visibility_witness :
    (([c1notif, c1notif].foldl (visNotifStep 800)
          (initState c1cfg [itemElem "e"] (some "t"))).applyPasses ≤ 1 ∧
        ([c1notif, c1notif].foldl (visNotifStep 800)
          (initState c1cfg [itemElem "e"] (some "t"))).removePasses = 0 ∧
        ([c1notif, c1notif].foldl (visNotifStep 800)
          (initState c1cfg [itemElem "e"] (some "t"))).registered = true) ∧
      ([c1notif, c1notif].foldl (visNotifStep 800)
        (initState c1cfg [itemElem "e"] (some "t"))).applyPasses = 1 :=
  ⟨c1_once_visibility_single_apply_never_unregistered c1cfg 800 [itemElem "e"] (some "t")
      [c1notif, c1notif] (by decide),
    by decide⟩

/-! ### The click state machine -/

theorem plainInvoke_cfg (st : EngState) (a : JsAction) (w : Option String) :
    (plainInvoke st a w).cfg = st.cfg := by
  unfold plainInvoke
  split <;> rfl

theorem plainInvoke_passes (st : EngState) (a : JsAction) (w : Option String) :
    (plainInvoke st a w).applyPasses = st.applyPasses ∧
      (plainInvoke st a w).removePasses = st.removePasses := by
  unfold plainInvoke
  constructor <;> (split <;> rfl)

/-- Unfolding of one click step: the handler computes the action from
the current flag, flips the flag, invokes the callback, and the
scheduled debounced body then runs against the flipped flag. -/
theorem clickStep_eq (vh : Int) (st : EngState) :
    clickStep vh st =
      fireBody plainInvoke vh
        (plainInvoke { st with cfg := { st.cfg with classesAdded := !st.cfg.classesAdded } }
          (if st.cfg.classesAdded then JsAction.remove else JsAction.add) st.trigger)
        (if st.cfg.classesAdded then JsAction.remove else JsAction.add) := rfl

theorem fireBody_add_skip (invoke : EngState → JsAction → Option String → EngState)
    (vh : Int) (st : EngState) (h1 : st.cfg.once = true) (h2 : st.cfg.classesAdded = true) :
    fireBody invoke vh st JsAction.add = st := by
  have h : ¬ (¬ st.cfg.once = true ∨ ¬ st.cfg.classesAdded = true) := by simp [h1, h2]
  simp only [fireBody, if_neg h]

theorem fireBody_remove_skip (invoke : EngState → JsAction → Option String → EngState)
    (vh : Int) (st : EngState) (h1 : st.cfg.once = true) :
    fireBody invoke vh st JsAction.remove = st := by
  have h : ¬ (¬ st.cfg.once = true) := by simp [h1]
  simp only [fireBody, if_neg h]

/-- Flushing a scheduled debounced body after the handler's own
callback invocation leaves the pass counters of a `once` rule
untouched whenever the flag was already flipped (add) or outright
(remove). -/
theorem fire_after_invoke_once (vh : Int) (st' : EngState) (a : JsAction) (w : Option String)
    (ho : st'.cfg.once = true)
    (hc : st'.cfg.classesAdded = true ∨ a = JsAction.remove) :
    (fireBody plainInvoke vh (plainInvoke st' a w) a).applyPasses = st'.applyPasses ∧
      (fireBody plainInvoke vh (plainInvoke st' a w) a).removePasses = st'.removePasses ∧
      (fireBody plainInvoke vh (plainInvoke st' a w) a).cfg.once = true := by
  have hcfg := plainInvoke_cfg st' a w
  have hp := plainInvoke_passes st' a w
  cases a with
  | remove =>
    rw [fireBody_remove_skip _ _ _ (by rw [hcfg]; exact ho)]
    exact ⟨hp.1, hp.2, by rw [hcfg]; exact ho⟩
  | add =>
    have hcc : st'.cfg.classesAdded = true := by
      cases hc with
      | inl h => exact h
      | inr h => exact absurd h (by simp)
    rw [fireBody_add_skip _ _ _ (by rw [hcfg]; exact ho) (by rw [hcfg]; exact hcc)]
    exact ⟨hp.1, hp.2, by rw [hcfg]; exact ho⟩

/-- One click of a `once` rule never changes the pass counters: the
handler flips `classesAdded` before the scheduled debounced body runs,
so the add body's guard `!once || !classesAdded` is already false at
flush time, and the remove body is disabled by `!once` outright. -/
theorem clickStep_once (vh : Int) (st : EngState) (h1 : st.cfg.once = true) :
    (clickStep vh st).applyPasses = st.applyPasses ∧
      (clickStep vh st).removePasses = st.removePasses ∧
      (clickStep vh st).cfg.once = true := by
  rw [clickStep_eq]
  cases hca : st.cfg.classesAdded with
  | true =>
    simp only [hca, Bool.not_true, if_true]
    exact fire_after_invoke_once vh _ JsAction.remove st.trigger h1 (Or.inr rfl)
  | false =>
    simp only [hca, Bool.not_false, if_false]
    exact fire_after_invoke_once vh _ JsAction.add st.trigger h1 (Or.inl rfl)

/-- C3 (supporting theorem for the code defect): a `once`
activation-gesture (click) rule never runs any mutation pass at all —
across any number of clicks both pass counters stay zero, because the
handler's synchronous flip of `classesAdded` defeats the add body's
`!once || !classesAdded` guard before it is evaluated, while the claim
(and the source's own `once` documentation) says the first activation
runs the apply action. -/
theorem c3_once_click_never_applies (cfg : Config) (vh : Int) (doc : List Elem)
    (tr : Option String) (n : Nat) (hOnce : cfg.once = true) :
    ((clickStep vh)^[n] (initState cfg doc tr)).applyPasses = 0 ∧
      ((clickStep vh)^[n] (initState cfg doc tr)).removePasses = 0 := by
  have main : ∀ (n : Nat) (st : EngState), st.cfg.once = true → st.applyPasses = 0 →
      st.removePasses = 0 →
      ((clickStep vh)^[n] st).applyPasses = 0 ∧
        ((clickStep vh)^[n] st).removePasses = 0 ∧
        ((clickStep vh)^[n] st).cfg.once = true := by
    intro n
    induction n with
    | zero => intro st h1 h2 h3; exact ⟨h2, h3, h1⟩
    | succ k ih =>
      intro st h1 h2 h3
      rw [Function.iterate_succ_apply]
      obtain ⟨ha, hb, hc⟩ := clickStep_once vh st h1
      exact ih _ hc (ha.trans h2) (hb.trans h3)
  exact ⟨(main n _ hOnce rfl rfl).1, (main n _ hOnce rfl rfl).2.1⟩

/-- Witness for C3: after one click of the `once` rule no mutation pass
has run and the target still lacks the "on" label. -/
theorem c3_once_click_witness :
    (((clickStep 800)^[1] (initState c3cfg [itemElem "e"] (some "t"))).applyPasses = 0 ∧
        ((clickStep 800)^[1] (initState c3cfg [itemElem "e"] (some "t"))).removePasses = 0) ∧
      (((clickStep 800)^[1] (initState c3cfg [itemElem "e"] (some "t"))).doc.headD
          (itemElem "e")).classes.contains "on" = false :=
  ⟨c3_once_click_never_applies c3cfg 800 [itemElem "e"] (some "t") 1 (by decide), by decide⟩

theorem visInvoke_userCalls (st : EngState) (a : JsAction) (w : Option String)
    (hcb : st.cfg.hasCallback = true) :
    (visInvoke st a w).userCalls = st.userCalls ++ [(w, a)] := by
  unfold visInvoke
  simp only [hcb, if_true]
  split <;> rfl

theorem foldl_visInvoke_userCalls (calls : List (Elem × JsAction)) :
    ∀ st : EngState, st.cfg.hasCallback = true →
      (calls.foldl (fun s c => visInvoke s c.2 (some c.1.eid)) st).userCalls =
        st.userCalls ++ calls.map (fun c => (some c.1.eid, c.2)) := by
  induction calls with
  | nil => intro st _; simp
  | cons c rest ih =>
    intro st hcb
    rw [List.foldl_cons, ih _ (by rw [visInvoke_cfg]; exact hcb),
      visInvoke_userCalls st c.2 (some c.1.eid) hcb]
    simp

theorem firePass_vis_userCalls (vh : Int) (st : EngState) (a : JsAction)
    (hcb : st.cfg.hasCallback = true) :
    (firePass visInvoke vh st a).userCalls =
      st.userCalls ++ (st.trigger, a) ::
        (initClasses st.cfg vh a (targetsOf st.cfg st.doc)).2.map
          (fun c => (some c.1.eid, c.2)) := by
  cases a <;>
    (unfold firePass
     rw [foldl_visInvoke_userCalls _ _ (by simp [visInvoke_cfg, hcb])]
     simp [visInvoke_userCalls, hcb])

/-- C4 (amended): within one firing of a mutation pass with a callback
present, `onMutate` is invoked exactly once per mutated element with
that element as first argument and the pass's action kind (always "add"
or "remove") as second argument, plus exactly one additional invocation
per firing with the resolved trigger element (or null) as first
argument (the claim as stated forbids this extra invocation). -/
theorem c4_callback_amended (cfg : Config) (vh : Int) (doc : List Elem) (tr : Option String)
    (a : JsAction) (hcb : cfg.hasCallback = true) (hOnce : cfg.once = false) :
    (fireBody visInvoke vh (initState cfg doc tr) a).userCalls =
        (tr, a) :: (initClasses cfg vh a (targetsOf cfg doc)).2.map
          (fun c => (some c.1.eid, c.2)) ∧
      (initClasses cfg vh a (targetsOf cfg doc)).2 =
        ((targetsOf cfg doc).enum.filter (fun p => selectedIdx cfg p.1)).map
          (fun p => (mutateElem cfg vh a p.2, a)) ∧
      ∀ c ∈ (fireBody visInvoke vh (initState cfg doc tr) a).userCalls, c.2 = a := by
  have hguard : fireBody visInvoke vh (initState cfg doc tr) a =
      firePass visInvoke vh (initState cfg doc tr) a := by
    cases a <;> simp [fireBody, initState, hOnce]
  have hcalls : (fireBody visInvoke vh (initState cfg doc tr) a).userCalls =
      (tr, a) :: (initClasses cfg vh a (targetsOf cfg doc)).2.map
        (fun c => (some c.1.eid, c.2)) := by
    rw [hguard, firePass_vis_userCalls _ _ _ hcb]
    rfl
  refine ⟨hcalls, by simp [initClasses, hcb], ?_⟩
  intro c hc
  rw [hcalls] at hc
  rcases List.mem_cons.mp hc with h | h
  · rw [h]
  · simp only [List.mem_map] at h
    obtain ⟨orig, horig, rfl⟩ := h
    exact initClasses_calls_action cfg vh a (targetsOf cfg doc) orig horig

/-- Counterexample for C4: one firing with one mutated element makes
two callback invocations — the per-element one plus one whose first
argument is the trigger reference (null here), so the invocation list
is not the single per-element call the claim predicts. -/
theorem c4_callback_counterexample :
    (fireBody visInvoke 800 (initState c4cfg [itemElem "e"] none) JsAction.add).userCalls =
        [(none, JsAction.add),
          (some "e", JsAction.add)] ∧
      ¬ ((fireBody visInvoke 800 (initState c4cfg [itemElem "e"] none)
            JsAction.add).userCalls = [(some "e", JsAction.add)]) := by
  constructor <;> decide

/-- Witness for C4: the amended description holds at the concrete
firing. -/
theorem c4_callback_witness :
    (fireBody visInvoke 800 (initState c4cfg [itemElem "e"] none) JsAction.add).userCalls =
        (none, JsAction.add) :: (initClasses c4cfg 800 JsAction.add
            (targetsOf c4cfg [itemElem "e"])).2.map (fun c => (some c.1.eid, c.2)) ∧
      (initClasses c4cfg 800 JsAction.add (targetsOf c4cfg [itemElem "e"])).2.length = 1 :=
  ⟨(c4_callback_amended c4cfg 800 [itemElem "e"] none JsAction.add (by decide) (by decide)).1,
    by decide⟩

theorem updateDoc_single (e u : Elem) (h : u.eid = e.eid) : updateDoc [e] [u] = [u] := by
  simp [updateDoc, List.find?, h]

theorem initClasses_fst_single (cfg : Config) (vh : Int) (a : JsAction) (e : Elem)
    (hSel : selectedIdx cfg 0 = true) :
    (initClasses cfg vh a [e]).1 = [mutateElem cfg vh a e] := by
  simp [initClasses, List.enum, hSel]

theorem firePass_vis_doc (vh : Int) (st : EngState) (a : JsAction) :
    (firePass visInvoke vh st a).doc =
      updateDoc st.doc (initClasses st.cfg vh a (targetsOf st.cfg st.doc)).1 := by
  cases a <;>
    (unfold firePass
     rw [foldl_visInvoke_doc]
     simp [visInvoke_doc])

theorem visSingle_doc (cfg : Config) (vh : Int) (e : Elem) (tr : Option String) (a : JsAction)
    (hOnce : cfg.once = false) (hT : targetsOf cfg [e] = [e])
    (hSel : selectedIdx cfg 0 = true) :
    (fireBody visInvoke vh (initState cfg [e] tr) a).doc = [mutateElem cfg vh a e] := by
  have hguard : fireBody visInvoke vh (initState cfg [e] tr) a =
      firePass visInvoke vh (initState cfg [e] tr) a := by
    cases a <;> simp [fireBody, initState, hOnce]
  rw [hguard, firePass_vis_doc]
  show updateDoc [e] (initClasses cfg vh a (targetsOf cfg [e])).1 = _
  rw [hT, initClasses_fst_single _ _ _ _ hSel,
    updateDoc_single _ _ (mutateElem_eid cfg vh a e)]

/-- C2 (amended): for a rule with non-empty topAddLabels handled by the
Visibility Observer Pool, one crossing notification acts as a
direction-aware tri-state: an element fully above the viewport receives
an add pass that leaves every topAddLabel present and every addLabel
absent; an element fully below the viewport receives a remove pass that
clears both topAddLabels and addLabels, so neither label set is present
(the claim as stated predicts the addLabels present there); a partially
visible element is not mutated at all. -/
theorem c2_tri_state_amended (cfg : Config) (vh : Int) (e : Elem) (tr : Option String)
    (hTop : cfg.topAddClasses ≠ []) (hOnce : cfg.once = false)
    (hT : targetsOf cfg [e] = [e]) (hSel : selectedIdx cfg 0 = true)
    (hDisj : ∀ c ∈ cfg.topAddClasses, ¬ c ∈ cfg.addClasses) :
    (e.rectBottom < 0 →
        (∀ c ∈ cfg.topAddClasses,
          c ∈ ((visNotifStep vh (initState cfg [e] tr) (notifOf e)).doc.headD e).classes) ∧
        (∀ c ∈ cfg.addClasses,
          ¬ c ∈ ((visNotifStep vh (initState cfg [e] tr) (notifOf e)).doc.headD e).classes)) ∧
      (¬ e.rectBottom < 0 → e.rectTop > vh →
        ∀ c, (c ∈ cfg.topAddClasses ∨ c ∈ cfg.addClasses) →
          ¬ c ∈ ((visNotifStep vh (initState cfg [e] tr) (notifOf e)).doc.headD e).classes) ∧
      (¬ e.rectBottom < 0 → ¬ e.rectTop > vh →
        (visNotifStep vh (initState cfg [e] tr) (notifOf e)).doc.headD e = e) := by
  refine ⟨?_, ?_, ?_⟩
  · intro hb
    have hdisp : visDispatch cfg vh (notifOf e) = [JsAction.add] := by
      simp [visDispatch, hTop, notifOf, hb]
    have hstep : (visNotifStep vh (initState cfg [e] tr) (notifOf e)).doc =
        [mutateElem cfg vh JsAction.add e] := by
      show ((visDispatch cfg vh (notifOf e)).foldl (fireBody visInvoke vh)
          (initState cfg [e] tr)).doc = _
      rw [hdisp]
      exact visSingle_doc cfg vh e tr JsAction.add hOnce hT hSel
    have hmut : mutateElem cfg vh JsAction.add e =
        { e with
          classes := classListRemove (classListAdd e.classes cfg.topAddClasses) cfg.addClasses } := by
      simp [mutateElem, hTop, hb]
    rw [hstep, hmut]
    constructor
    · intro c hc
      exact mem_classListRemove.mpr ⟨mem_classListAdd.mpr (Or.inr hc), hDisj c hc⟩
    · intro c hc hmem
      exact (mem_classListRemove.mp hmem).2 hc
  · intro hb ht
    have hdisp : visDispatch cfg vh (notifOf e) = [JsAction.remove] := by
      simp [visDispatch, hTop, notifOf, hb, ht]
    have hstep : (visNotifStep vh (initState cfg [e] tr) (notifOf e)).doc =
        [mutateElem cfg vh JsAction.remove e] := by
      show ((visDispatch cfg vh (notifOf e)).foldl (fireBody visInvoke vh)
          (initState cfg [e] tr)).doc = _
      rw [hdisp]
      exact visSingle_doc cfg vh e tr JsAction.remove hOnce hT hSel
    have hmut : mutateElem cfg vh JsAction.remove e =
        { e with
          classes := classListRemove e.classes (cfg.topAddClasses ++ cfg.addClasses) } := by
      simp [mutateElem, hTop]
    rw [hstep, hmut]
    intro c hc hmem
    exact (mem_classListRemove.mp hmem).2 (List.mem_append.mpr hc)
  · intro hb ht
    have hdisp : visDispatch cfg vh (notifOf e) = [] := by
      simp [visDispatch, hTop, notifOf, hb, ht]
    show ((visDispatch cfg vh (notifOf e)).foldl (fireBody visInvoke vh)
        (initState cfg [e] tr)).doc.headD e = e
    rw [hdisp]
    rfl

/-- Counterexample for C2: with the element fully below the viewport the
crossing fires a remove pass that strips both label sets, so "future" is
absent afterwards, contradicting the claim's "future present". -/
theorem c2_tri_state_counterexample :
    ((visNotifStep 800 (initState c2cfg [belowElem] none)
          (notifOf belowElem)).doc.headD belowElem).classes = ["it"] ∧
      ¬ "future" ∈ ((visNotifStep 800 (initState c2cfg [belowElem] none)
          (notifOf belowElem)).doc.headD belowElem).classes := by
  constructor <;> decide

/-- Witness for C2: the element scrolled fully above the viewport ends
with "past" present and "future" absent. -/
theorem c2_tri_state_witness :
    "past" ∈ ((visNotifStep 800 (initState c2cfg [aboveElem] none)
          (notifOf aboveElem)).doc.headD aboveElem).classes ∧
      ¬ "future" ∈ ((visNotifStep 800 (initState c2cfg [aboveElem] none)
          (notifOf aboveElem)).doc.headD aboveElem).classes :=
  ⟨((c2_tri_state_amended c2cfg 800 aboveElem none (by decide) (by decide) (by decide)
        (by decide) (by decide)).1 (by decide)).1 "past" (by decide),
    ((c2_tri_state_amended c2cfg 800 aboveElem none (by decide) (by decide) (by decide)
        (by decide) (by decide)).1 (by decide)).2 "future" (by decide)⟩
